import Mathlib

/-!
Light-triggered WS2812B blinker (`src/main/main.c`).

A shallow embedding of the frame buffer (`led_data`, `set_pixel`), of the
`while (1)` body of `app_main` (trigger check, painting, `update_leds`,
`last_light_value` update) and of the bytes-encoder configuration of
`ws2812_init`, with the properties of the specification proved about them.

Conventions of the embedding.

* `uint8_t` and `uint32_t` values are natural numbers; `uint32_t` arithmetic is
  reduced modulo `2 ^ 32` where the C code computes it.
* `int` values are integers. The only signed arithmetic of the program is
  `current_light - last_light_value` on ADC readings, which C computes exactly
  (signed overflow is undefined in C, and 12-bit readings are far from it).
* `led_data` is a list of bytes; a store outside the array is a fault, modelled
  by `none`.
-/

namespace Warning

/-! ## Constants (`#define`s of `main.c`) -/

/-- Number of LEDs on the strip: `#define LED_COUNT 14`. -/
def LED_COUNT : Nat := 14

/-- Length of the blink window in milliseconds: `#define BLINK_DURATION 10000`. -/
def BLINK_DURATION : Nat := 10000

/-- High time of a 0 bit, in ticks of the 10 MHz RMT clock: `#define T0H 4`. -/
def T0H : Nat := 4

/-- Low time of a 0 bit: `#define T0L 8`. -/
def T0L : Nat := 8

/-- High time of a 1 bit: `#define T1H 8`. -/
def T1H : Nat := 8

/-- Low time of a 1 bit: `#define T1L 4`. -/
def T1L : Nat := 4

/-- Number of values of a `uint32_t`. -/
def UINT32_SIZE : Nat := 4294967296

/-- Size in bytes of `static uint8_t led_data[LED_COUNT * 3]`. -/
def LED_DATA_SIZE : Nat := LED_COUNT * 3

/-! ## Frame buffer -/

/-- The assignment `led_data[i] = v`. A store past the end of the array is a
fault (`none`). -/
def store (led_data : List Nat) (i v : Nat) : Option (List Nat) :=
  if i < led_data.length then some (led_data.set i v) else none

/-- The function `void set_pixel(uint32_t pos, uint8_t r, uint8_t g, uint8_t b)`,
acting on the global `led_data`, which is passed in and returned. -/
def set_pixel (led_data : List Nat) (pos r g b : Nat) : Option (List Nat) :=
  if pos < LED_COUNT then do
    let d0 ← store led_data (pos * 3 + 0) g
    let d1 ← store d0 (pos * 3 + 1) r
    store d1 (pos * 3 + 2) b
  else
    some led_data

/-- The loop `for (int i = 0; i < LED_COUNT; i++) set_pixel(i, r, g, b);`. -/
def set_all_pixels (led_data : List Nat) (r g b : Nat) : Option (List Nat) :=
  (List.range LED_COUNT).foldlM (fun d i => set_pixel d i r g b) led_data

/-- The frame in which every pixel has the colour `(r, g, b)`: the bytes
`g, r, b` repeated `LED_COUNT` times. -/
def solid_frame (r g b : Nat) : List Nat :=
  (List.replicate LED_COUNT [g, r, b]).flatten

/-- Byte `j` of a solid frame: green, red, blue in turn. -/
def grb_byte (r g b j : Nat) : Nat :=
  if j % 3 = 0 then g else if j % 3 = 1 then r else b

/-! ## Time -/

/-- The expression `xTaskGetTickCount() * portTICK_PERIOD_MS`, a `uint32_t`
product, for a tick count `ticks`. `portTICK_PERIOD_MS` comes from the FreeRTOS
configuration and is a parameter. -/
def time_ms (portTICK_PERIOD_MS ticks : Nat) : Nat :=
  (ticks * portTICK_PERIOD_MS) % UINT32_SIZE

/-- Conversion of a `uint32_t` to `int`, as in `int blink_start = ...`. -/
def to_int (n : Nat) : Int :=
  if n % UINT32_SIZE < 2147483648 then (n % UINT32_SIZE : Int)
  else (n % UINT32_SIZE : Int) - 4294967296

/-- The expression `current_time - blink_start` with `uint32_t current_time` and
`int blink_start`: the `int` is converted to `uint32_t` and the difference is
taken modulo `2 ^ 32`. -/
def elapsed (current_time : Nat) (blink_start : Int) : Nat :=
  (((current_time : Int) - blink_start) % 4294967296).toNat

/-! ## Control loop -/

/-- The variables that live across iterations of `while (1)` in `app_main`,
with the global `led_data`. -/
structure BlinkState where
  /-- Global `led_data`. -/
  led_data : List Nat
  /-- Local `int last_light_value`. -/
  last_light_value : Int
  /-- Local `int blink_start`. -/
  blink_start : Int
  /-- Local `bool is_blinking`. -/
  is_blinking : Bool
deriving DecidableEq, Repr

/-- What one iteration reads from its environment. -/
structure TickInput where
  /-- Result of `adc_oneshot_read` into `current_light`. -/
  current_light : Int
  /-- Value of `xTaskGetTickCount()` in the trigger branch (line 104), were it
  executed. -/
  trigger_ticks : Nat
  /-- Value of `xTaskGetTickCount()` for `current_time` (line 108). -/
  now_ticks : Nat
deriving DecidableEq, Repr

/-- What one iteration emits. -/
structure TickOutput where
  /-- Whether "Light change detected! Starting blink" is printed. -/
  detected : Bool
  /-- The bytes handed to `rmt_transmit` by `update_leds`. -/
  frame : List Nat
deriving DecidableEq, Repr

/-- The condition `abs(current_light - last_light_value) > 200`. -/
def light_changed (st : BlinkState) (inp : TickInput) : Bool :=
  decide ((inp.current_light - st.last_light_value).natAbs > 200)

/-- Lines 101-106: the trigger check. -/
def trigger_check (portTICK_PERIOD_MS : Nat) (st : BlinkState) (inp : TickInput) :
    BlinkState :=
  if light_changed st inp then
    { st with
      is_blinking := true
      blink_start := to_int (time_ms portTICK_PERIOD_MS inp.trigger_ticks) }
  else
    st

/-- Lines 110-131: painting of the frame buffer for `current_time`. -/
def paint (st : BlinkState) (current_time : Nat) : Option BlinkState :=
  if st.is_blinking then
    if elapsed current_time st.blink_start < BLINK_DURATION then
      if (current_time / 500) % 2 ≠ 0 then do
        let d ← set_all_pixels st.led_data 255 0 0
        pure { st with led_data := d }
      else do
        let d ← set_all_pixels st.led_data 0 0 0
        pure { st with led_data := d }
    else do
      let d ← set_all_pixels st.led_data 0 0 0
      pure { st with is_blinking := false, led_data := d }
  else do
    let d ← set_all_pixels st.led_data 0 0 0
    pure { st with led_data := d }

/-- One iteration of `while (1)` (lines 93-137): trigger check, painting,
`update_leds()` and `last_light_value = current_light`. -/
def tick (portTICK_PERIOD_MS : Nat) (st : BlinkState) (inp : TickInput) :
    Option (BlinkState × TickOutput) := do
  let st1 := trigger_check portTICK_PERIOD_MS st inp
  let current_time := time_ms portTICK_PERIOD_MS inp.now_ticks
  let st2 ← paint st1 current_time
  pure ({ st2 with last_light_value := inp.current_light },
        { detected := light_changed st inp, frame := st2.led_data })

/-- The loop run on a list of inputs: for each iteration, the state it leaves
and what it emitted. -/
def run (portTICK_PERIOD_MS : Nat) :
    BlinkState → List TickInput → Option (List (BlinkState × TickOutput))
  | _, [] => some []
  | st, inp :: rest => do
    let r ← tick portTICK_PERIOD_MS st inp
    let rs ← run portTICK_PERIOD_MS r.1 rest
    pure (r :: rs)

/-- Lines 80-89 of `app_main`: all pixels off, `update_leds()`, first sample
into `last_light_value`, `blink_start = 0`, `is_blinking = false`. -/
def app_init (led_data : List Nat) (first_light : Int) :
    Option (BlinkState × TickOutput) := do
  let d ← set_all_pixels led_data 0 0 0
  pure ({ led_data := d, last_light_value := first_light, blink_start := 0,
          is_blinking := false },
        { detected := false, frame := d })

/-- The function `app_main` from the first paint on: initialisation, then the
loop on `inputs`; the result is everything emitted, in order. -/
def app_main (portTICK_PERIOD_MS : Nat) (led_data : List Nat) (first_light : Int)
    (inputs : List TickInput) : Option (List TickOutput) := do
  let r0 ← app_init led_data first_light
  let rs ← run portTICK_PERIOD_MS r0.1 inputs
  pure (r0.2 :: rs.map Prod.snd)

/-- Every sample of the run is within 200 of the sample before it, `prev` being
the sample before the first. -/
def quiet : Int → List TickInput → Bool
  | _, [] => true
  | prev, inp :: rest =>
    decide (|inp.current_light - prev| ≤ 200) && quiet inp.current_light rest

/-! ## Waveform encoder -/

/-- An RMT symbol (`rmt_symbol_word_t`): the line is at `level0` for `duration0`
ticks, then at `level1` for `duration1` ticks. -/
structure rmt_symbol where
  level0 : Nat
  duration0 : Nat
  level1 : Nat
  duration1 : Nat
deriving DecidableEq, Repr

/-- The fields of `rmt_bytes_encoder_config_t` that `ws2812_init` sets. -/
structure rmt_bytes_encoder_config where
  bit0 : rmt_symbol
  bit1 : rmt_symbol
  msb_first : Bool
deriving DecidableEq, Repr

/-- The value of `bytes_encoder_config` in `ws2812_init` (lines 45-59). -/
def bytes_encoder_config : rmt_bytes_encoder_config :=
  { bit0 := { level0 := 1, duration0 := T0H, level1 := 0, duration1 := T0L }
    bit1 := { level0 := 1, duration0 := T1H, level1 := 0, duration1 := T1L }
    msb_first := true }

/-- Bit `k` of a byte, counted from the most significant one (`k = 0` is bit 7). -/
def msb_bit (byte k : Nat) : Nat :=
  (byte / 2 ^ (7 - k)) % 2

/-- Bit `k` of a byte, counted from the least significant one. -/
def lsb_bit (byte k : Nat) : Nat :=
  (byte / 2 ^ k) % 2

/-- Modelled from the spec: the bytes encoder made by `rmt_new_bytes_encoder`
(ESP-IDF driver code, not in the sources), on one byte. Section 4.1: for each
bit, most significant first when `msb_first` is set, the pulse pair of the bit
value is taken from the profile. -/
def encode_byte (cfg : rmt_bytes_encoder_config) (byte : Nat) : List rmt_symbol :=
  (List.range 8).map fun k =>
    if (if cfg.msb_first then msb_bit byte k else lsb_bit byte k) = 1 then cfg.bit1
    else cfg.bit0

/-- Modelled from the spec: the bytes encoder on a byte sequence; byte order is
kept (section 4.1). -/
def rmt_encode_bytes (cfg : rmt_bytes_encoder_config) : List Nat → List rmt_symbol
  | [] => []
  | byte :: rest => encode_byte cfg byte ++ rmt_encode_bytes cfg rest

/-- The pulse train that `update_leds` puts on the line: `rmt_transmit` of
`led_data` through `led_encoder`. -/
def update_leds (led_data : List Nat) : List rmt_symbol :=
  rmt_encode_bytes bytes_encoder_config led_data

/-- Reference decoder, one pulse pair: the line goes high then low, and the bit
is 1 when the high time is the longer one, as a WS2812B reads it. -/
def decode_symbol (s : rmt_symbol) : Option Nat :=
  if s.level0 = 1 ∧ s.level1 = 0 then
    some (if s.duration1 < s.duration0 then 1 else 0)
  else none

/-- Reference decoder, eight bits, most significant first, to a byte. -/
def bits_to_byte (bits : List Nat) : Nat :=
  bits.foldl (fun acc bit => 2 * acc + bit) 0

/-- Reference decoder of a pulse train: eight pulse pairs per byte, most
significant bit first; a train that is not a whole number of bytes is rejected. -/
def ws2812_decode : List rmt_symbol → Option (List Nat)
  | [] => some []
  | s0 :: s1 :: s2 :: s3 :: s4 :: s5 :: s6 :: s7 :: rest => do
    let bits ← [s0, s1, s2, s3, s4, s5, s6, s7].mapM decode_symbol
    let bytes ← ws2812_decode rest
    pure (bits_to_byte bits :: bytes)
  | _ => none

/-! ## Basic facts about the frame buffer -/

theorem store_eq {d : List Nat} {i : Nat} (v : Nat) (h : i < d.length) :
    store d i v = some (d.set i v) := by
  simp [store, h]

theorem set_pixel_eq {d : List Nat} {pos : Nat} (r g b : Nat)
    (hd : d.length = LED_DATA_SIZE) (hp : pos < LED_COUNT) :
    set_pixel d pos r g b
      = some (((d.set (pos * 3) g).set (pos * 3 + 1) r).set (pos * 3 + 2) b) := by
  have h42 : d.length = 42 := hd
  have h14 : pos < 14 := hp
  have h0 : pos * 3 < d.length := by omega
  have h1 : pos * 3 + 1 < (d.set (pos * 3) g).length := by
    rw [List.length_set]; omega
  have h2 : pos * 3 + 2 < ((d.set (pos * 3) g).set (pos * 3 + 1) r).length := by
    rw [List.length_set, List.length_set]; omega
  simp only [set_pixel, hp, if_true, Nat.add_zero, Option.bind_eq_bind]
  rw [store_eq g h0, Option.some_bind, store_eq r h1, Option.some_bind, store_eq b h2]

theorem solid_frame_length (r g b : Nat) : (solid_frame r g b).length = LED_DATA_SIZE := by
  simp [solid_frame, LED_COUNT, LED_DATA_SIZE, List.replicate, List.flatten]

theorem solid_frame_getElem? (r g b j : Nat) (hj : j < 42) :
    (solid_frame r g b)[j]? = some (grb_byte r g b j) := by
  have hs : solid_frame r g b = [g, r, b, g, r, b, g, r, b, g, r, b, g, r, b, g, r, b,
      g, r, b, g, r, b, g, r, b, g, r, b, g, r, b, g, r, b, g, r, b, g, r, b] := by
    simp [solid_frame, LED_COUNT, List.replicate, List.flatten]
  rw [hs]
  interval_cases j <;> simp [grb_byte]

/-- After `k` rounds of the painting loop the first `3 * k` bytes are painted
and the others are as before. -/
theorem paint_rounds (d : List Nat) (r g b : Nat) (hd : d.length = LED_DATA_SIZE) :
    ∀ k, k ≤ LED_COUNT →
      ∃ dk, (List.range k).foldlM (fun d i => set_pixel d i r g b) d = some dk ∧
        dk.length = LED_DATA_SIZE ∧
        ∀ j, dk[j]? = if j < 3 * k then some (grb_byte r g b j) else d[j]? := by
  intro k
  induction k with
  | zero =>
    intro _
    exact ⟨d, by simp, hd, by simp⟩
  | succ k ih =>
    intro hk
    obtain ⟨dk, hfold, hlen, hget⟩ := ih (by omega)
    have hk14 : k < LED_COUNT := by omega
    refine ⟨((dk.set (k * 3) g).set (k * 3 + 1) r).set (k * 3 + 2) b, ?_, ?_, ?_⟩
    · rw [List.range_succ, List.foldlM_append, hfold]
      simp only [Option.bind_eq_bind, Option.some_bind, List.foldlM_cons, List.foldlM_nil]
      rw [set_pixel_eq r g b hlen hk14]
      rfl
    · simp [List.length_set, hlen]
    · intro j
      have h42 : dk.length = 42 := hlen
      have h14 : k < 14 := hk14
      simp only [List.getElem?_set, List.length_set, hget]
      by_cases h2 : k * 3 + 2 = j
      · subst h2
        have e1 : (k * 3 + 2) % 3 = 2 := by omega
        have e2 : k * 3 + 2 < 42 := by omega
        have e3 : k * 3 + 2 < 3 * (k + 1) := by omega
        simp [grb_byte, e1, e2, e3, h42]
      · by_cases h1 : k * 3 + 1 = j
        · subst h1
          have e1 : (k * 3 + 1) % 3 = 1 := by omega
          have e2 : k * 3 + 1 < 42 := by omega
          have e3 : k * 3 + 1 < 3 * (k + 1) := by omega
          simp [grb_byte, e1, e2, e3, h42]
        · by_cases h0 : k * 3 = j
          · subst h0
            have e1 : (k * 3) % 3 = 0 := by omega
            have e2 : k * 3 < 42 := by omega
            have e3 : k * 3 < 3 * (k + 1) := by omega
            simp [grb_byte, e1, e2, e3, h42]
          · simp only [h2, h1, h0, if_false]
            by_cases hj : j < 3 * k
            · have : j < 3 * (k + 1) := by omega
              simp [hj, this]
            · have : ¬ j < 3 * (k + 1) := by omega
              simp [hj, this]

/-- On a buffer of the right size the painting loop does not fault and leaves
the solid frame of its colour. -/
theorem set_all_pixels_eq (d : List Nat) (r g b : Nat) (hd : d.length = LED_DATA_SIZE) :
    set_all_pixels d r g b = some (solid_frame r g b) := by
  obtain ⟨dk, hfold, hlen, hget⟩ := paint_rounds d r g b hd LED_COUNT (le_refl _)
  have : dk = solid_frame r g b := by
    apply List.ext_getElem?
    intro j
    rw [hget j]
    by_cases hj : j < 42
    · have : j < 3 * LED_COUNT := by simpa [LED_COUNT] using hj
      rw [if_pos this, solid_frame_getElem? r g b j hj]
    · have h1 : ¬ j < 3 * LED_COUNT := by simpa [LED_COUNT] using hj
      have h2 : d.length ≤ j := by rw [hd]; simp [LED_DATA_SIZE, LED_COUNT]; omega
      have h3 : (solid_frame r g b).length ≤ j := by
        rw [solid_frame_length]; simp [LED_DATA_SIZE, LED_COUNT]; omega
      rw [if_neg h1, List.getElem?_eq_none h2, List.getElem?_eq_none h3]
  rw [set_all_pixels, hfold, this]

/-! ## Basic facts about time and the trigger -/

theorem solid_frame_off : solid_frame 0 0 0 = List.replicate 42 0 := by
  decide

theorem time_ms_lt (P n : Nat) : time_ms P n < 4294967296 :=
  Nat.mod_lt _ (by decide)

/-- The elapsed time since a trigger at `t` that has not wrapped. -/
theorem elapsed_to_int (ct t : Nat) (ht : t < 4294967296) (hct : ct < 4294967296) :
    elapsed ct (to_int t) = if t ≤ ct then ct - t else ct + 4294967296 - t := by
  unfold elapsed to_int UINT32_SIZE
  split <;> split <;> omega

theorem light_changed_iff (st : BlinkState) (inp : TickInput) :
    light_changed st inp = true ↔ 200 < |inp.current_light - st.last_light_value| := by
  simp only [light_changed, decide_eq_true_eq, Int.abs_eq_natAbs]
  omega

theorem light_changed_eq_false_iff (st : BlinkState) (inp : TickInput) :
    light_changed st inp = false ↔ |inp.current_light - st.last_light_value| ≤ 200 := by
  rw [← Bool.not_eq_true, light_changed_iff]
  exact not_lt

theorem trigger_check_led_data (P : Nat) (st : BlinkState) (inp : TickInput) :
    (trigger_check P st inp).led_data = st.led_data := by
  unfold trigger_check
  split <;> rfl

/-- Closed form of `paint` on a buffer of the right size. -/
theorem paint_eq (st : BlinkState) (ct : Nat) (hd : st.led_data.length = LED_DATA_SIZE) :
    paint st ct = some
      { st with
        led_data :=
          if st.is_blinking = true ∧ elapsed ct st.blink_start < BLINK_DURATION
              ∧ (ct / 500) % 2 ≠ 0
          then solid_frame 255 0 0 else solid_frame 0 0 0,
        is_blinking :=
          st.is_blinking && decide (elapsed ct st.blink_start < BLINK_DURATION) } := by
  unfold paint
  rw [set_all_pixels_eq _ 255 0 0 hd, set_all_pixels_eq _ 0 0 0 hd]
  by_cases hb : st.is_blinking = true
  · by_cases he : elapsed ct st.blink_start < BLINK_DURATION
    · by_cases hp : (ct / 500) % 2 ≠ 0
      · simp [hb, he, hp]
      · simp [hb, he, hp]
    · simp [hb, he]
  · simp [hb]

/-- Closed form of one iteration on a buffer of the right size. -/
theorem tick_eq (P : Nat) (st : BlinkState) (inp : TickInput)
    (hd : st.led_data.length = LED_DATA_SIZE) :
    tick P st inp = some
      ({ led_data :=
            if (trigger_check P st inp).is_blinking = true
                ∧ elapsed (time_ms P inp.now_ticks) (trigger_check P st inp).blink_start
                    < BLINK_DURATION
                ∧ (time_ms P inp.now_ticks / 500) % 2 ≠ 0
            then solid_frame 255 0 0 else solid_frame 0 0 0,
          last_light_value := inp.current_light,
          blink_start := (trigger_check P st inp).blink_start,
          is_blinking :=
            (trigger_check P st inp).is_blinking
              && decide (elapsed (time_ms P inp.now_ticks)
                    (trigger_check P st inp).blink_start < BLINK_DURATION) },
        { detected := light_changed st inp,
          frame :=
            if (trigger_check P st inp).is_blinking = true
                ∧ elapsed (time_ms P inp.now_ticks) (trigger_check P st inp).blink_start
                    < BLINK_DURATION
                ∧ (time_ms P inp.now_ticks / 500) % 2 ≠ 0
            then solid_frame 255 0 0 else solid_frame 0 0 0 }) := by
  have hd1 : (trigger_check P st inp).led_data.length = LED_DATA_SIZE := by
    rw [trigger_check_led_data]; exact hd
  simp only [tick, paint_eq _ _ hd1, Option.bind_eq_bind, Option.some_bind, Option.pure_def]

theorem tick_led_data_length (P : Nat) (st : BlinkState) (inp : TickInput)
    (hd : st.led_data.length = LED_DATA_SIZE) (r : BlinkState × TickOutput)
    (h : tick P st inp = some r) : r.1.led_data.length = LED_DATA_SIZE := by
  rw [tick_eq P st inp hd] at h
  cases h
  simp only
  split <;> exact solid_frame_length _ _ _

/-- One iteration always completes on a buffer of the right size; it keeps the
size, stores the sample and reports the trigger condition. -/
theorem tick_total (P : Nat) (st : BlinkState) (inp : TickInput)
    (hd : st.led_data.length = LED_DATA_SIZE) :
    ∃ r, tick P st inp = some r ∧ r.1.led_data.length = LED_DATA_SIZE ∧
      r.1.last_light_value = inp.current_light ∧
      r.2.detected = light_changed st inp := by
  refine ⟨_, tick_eq P st inp hd, ?_, rfl, rfl⟩
  simp only
  split <;> exact solid_frame_length _ _ _

/-- An iteration started in IDLE without a trigger. -/
theorem idle_quiet_tick (P : Nat) (st : BlinkState) (inp : TickInput)
    (hd : st.led_data.length = LED_DATA_SIZE) (hidle : st.is_blinking = false)
    (hq : light_changed st inp = false) :
    ∃ st1, tick P st inp = some (st1, ⟨false, List.replicate 42 0⟩) ∧
      st1.is_blinking = false ∧ st1.blink_start = st.blink_start ∧
      st1.last_light_value = inp.current_light ∧
      st1.led_data.length = LED_DATA_SIZE := by
  have htc : trigger_check P st inp = st := by simp [trigger_check, hq]
  refine ⟨⟨List.replicate 42 0, inp.current_light, st.blink_start, false⟩, ?_, rfl, rfl,
    rfl, ?_⟩
  · rw [tick_eq P st inp hd, htc, hq]
    simp only [hidle, Bool.false_eq_true, false_and, if_false, Bool.false_and,
      solid_frame_off]
  · simp [LED_DATA_SIZE, LED_COUNT]

theorem run_cons_some (P : Nat) (st : BlinkState) (inp : TickInput) (rest : List TickInput)
    (r : BlinkState × TickOutput) (rs : List (BlinkState × TickOutput))
    (h1 : tick P st inp = some r) (h2 : run P r.1 rest = some rs) :
    run P st (inp :: rest) = some (r :: rs) := by
  simp [run, h1, h2]

/-- A run started in IDLE whose samples never move by more than 200. -/
theorem idle_quiet_run (P : Nat) (inputs : List TickInput) :
    ∀ st : BlinkState, st.led_data.length = LED_DATA_SIZE → st.is_blinking = false →
      quiet st.last_light_value inputs = true →
      ∃ steps, run P st inputs = some steps ∧ steps.length = inputs.length ∧
        ∀ r ∈ steps, r.2.frame = List.replicate 42 0 ∧ r.2.detected = false
          ∧ r.1.is_blinking = false := by
  induction inputs with
  | nil =>
    intro st _ _ _
    exact ⟨[], rfl, rfl, by simp⟩
  | cons inp rest ih =>
    intro st hd hidle hq
    simp only [quiet, Bool.and_eq_true, decide_eq_true_eq] at hq
    have hc : light_changed st inp = false := (light_changed_eq_false_iff st inp).mpr hq.1
    obtain ⟨st1, ht, hb1, _, hl1, hd1⟩ := idle_quiet_tick P st inp hd hidle hc
    obtain ⟨rs, hrun, hlen, hall⟩ := ih st1 hd1 hb1 (by rw [hl1]; exact hq.2)
    refine ⟨_, run_cons_some P st inp rest _ rs ht hrun, by simp [hlen], ?_⟩
    intro r hr
    rcases List.mem_cons.mp hr with h | h
    · subst h
      exact ⟨rfl, rfl, hb1⟩
    · exact hall r h

/-- An iteration without a trigger, in a blink window that started at `t0`, at a
`current_time` not before `t0`. -/
theorem window_quiet_tick (P t0 : Nat) (st : BlinkState) (inp : TickInput)
    (ht0 : t0 < 4294967296)
    (hd : st.led_data.length = LED_DATA_SIZE)
    (hstart : st.is_blinking = true → st.blink_start = to_int t0)
    (hq : light_changed st inp = false)
    (hle : t0 ≤ time_ms P inp.now_ticks) :
    ∃ r, tick P st inp = some r ∧
      r.1.led_data.length = LED_DATA_SIZE ∧
      r.1.last_light_value = inp.current_light ∧
      (r.1.is_blinking = true → r.1.blink_start = to_int t0) ∧
      (r.1.is_blinking = true
        ↔ st.is_blinking = true ∧ time_ms P inp.now_ticks - t0 < BLINK_DURATION) ∧
      (r.1.is_blinking = false → r.2.frame = List.replicate 42 0) ∧
      r.2.detected = false := by
  have htc : trigger_check P st inp = st := by simp [trigger_check, hq]
  have hel : st.is_blinking = true →
      elapsed (time_ms P inp.now_ticks) st.blink_start = time_ms P inp.now_ticks - t0 := by
    intro hb
    rw [hstart hb, elapsed_to_int _ _ ht0 (time_ms_lt _ _), if_pos hle]
  refine ⟨_, tick_eq P st inp hd, ?_, rfl, ?_, ?_, ?_, ?_⟩
  · simp only
    split <;> exact solid_frame_length _ _ _
  · rw [htc]
    intro hb
    simp only [Bool.and_eq_true] at hb
    exact hstart hb.1
  · rw [htc]
    by_cases hb : st.is_blinking = true
    · simp [hb, hel hb]
    · simp [hb]
  · rw [htc]
    intro hb
    simp only [Bool.and_eq_false_iff, decide_eq_false_iff_not] at hb
    have hno : ¬ (st.is_blinking = true
        ∧ elapsed (time_ms P inp.now_ticks) st.blink_start < BLINK_DURATION
        ∧ (time_ms P inp.now_ticks / 500) % 2 ≠ 0) := by
      rintro ⟨h1, h2, _⟩
      rcases hb with hb | hb
      · rw [h1] at hb; exact Bool.noConfusion hb
      · exact hb h2
    simp only [hno, if_false, solid_frame_off]
  · exact hq

/-- A run without triggers inside a blink window that started at `t0`: after
each iteration the controller is BLINKING exactly while less than
`BLINK_DURATION` has passed since `t0`, and it transmits an all-off frame from
then on. -/
theorem window_quiet_run (P t0 : Nat) (ht0 : t0 < 4294967296) (rest : List TickInput) :
    ∀ (st : BlinkState) (tprev : Nat),
      st.led_data.length = LED_DATA_SIZE →
      (st.is_blinking = true → st.blink_start = to_int t0) →
      (st.is_blinking = true ↔ tprev - t0 < BLINK_DURATION) →
      t0 ≤ tprev →
      quiet st.last_light_value rest = true →
      List.Pairwise (· ≤ ·) (tprev :: rest.map (fun i => time_ms P i.now_ticks)) →
      ∃ steps, run P st rest = some steps ∧ steps.length = rest.length ∧
        ∀ (i : Nat) (inp : TickInput) (r : BlinkState × TickOutput),
          rest[i]? = some inp → steps[i]? = some r →
          (r.1.is_blinking = true ↔ time_ms P inp.now_ticks - t0 < BLINK_DURATION) ∧
          (r.1.is_blinking = false → r.2.frame = List.replicate 42 0) ∧
          r.2.detected = false := by
  induction rest with
  | nil =>
    intro st tprev _ _ _ _ _ _
    exact ⟨[], rfl, rfl, by simp⟩
  | cons inp rest ih =>
    intro st tprev hd hstart hinv hle hq hpw
    simp only [quiet, Bool.and_eq_true, decide_eq_true_eq] at hq
    have hc : light_changed st inp = false := (light_changed_eq_false_iff st inp).mpr hq.1
    simp only [List.map_cons] at hpw
    have hpw1 := List.pairwise_cons.mp hpw
    have hct : tprev ≤ time_ms P inp.now_ticks := hpw1.1 _ (List.mem_cons_self _ _)
    obtain ⟨r, ht, hd1, hl1, hs1, hb1, hf1, hdet1⟩ :=
      window_quiet_tick P t0 st inp ht0 hd hstart hc (le_trans hle hct)
    have hinv1 : r.1.is_blinking = true ↔ time_ms P inp.now_ticks - t0 < BLINK_DURATION := by
      rw [hb1, hinv]
      constructor
      · exact fun h => h.2
      · intro h
        exact ⟨by omega, h⟩
    obtain ⟨rs, hrun, hlen, hall⟩ := ih r.1 (time_ms P inp.now_ticks) hd1 hs1 hinv1
      (le_trans hle hct) (by rw [hl1]; exact hq.2) hpw1.2
    refine ⟨r :: rs, run_cons_some P st inp rest r rs ht hrun, by simp [hlen], ?_⟩
    intro i inp1 r1 hi hr
    cases i with
    | zero =>
      simp only [List.getElem?_cons_zero, Option.some.injEq] at hi hr
      subst hi
      subst hr
      exact ⟨hinv1, hf1, hdet1⟩
    | succ n =>
      simp only [List.getElem?_cons_succ] at hi hr
      exact hall n inp1 r1 hi hr

/-- In a list whose images under `f` are pairwise ordered, a later element has
the larger image. -/
theorem pairwise_le_of_index {α : Type} (f : α → Nat) (l : List α)
    (hpw : List.Pairwise (· ≤ ·) (l.map f)) (i j : Nat) (a b : α) (hij : i ≤ j)
    (hi : l[i]? = some a) (hj : l[j]? = some b) : f a ≤ f b := by
  rcases Nat.eq_or_lt_of_le hij with h | h
  · subst h
    rw [hi] at hj
    cases hj
    exact le_refl _
  · obtain ⟨hil, hia⟩ := List.getElem?_eq_some.mp hi
    obtain ⟨hjl, hjb⟩ := List.getElem?_eq_some.mp hj
    have := List.pairwise_iff_getElem.mp hpw i j (by simpa using hil) (by simpa using hjl) h
    simpa [hia, hjb] using this

/-- The run from a triggering iteration on, with no later trigger and
non-decreasing times: the blink window is measured from the time read at the
trigger. -/
theorem window_after_trigger (P : Nat) (st : BlinkState) (inp0 : TickInput)
    (rest : List TickInput)
    (hd : st.led_data.length = LED_DATA_SIZE)
    (htrig : light_changed st inp0 = true)
    (hquiet : quiet inp0.current_light rest = true)
    (htimes : List.Pairwise (· ≤ ·)
      (time_ms P inp0.trigger_ticks
        :: (inp0 :: rest).map (fun i => time_ms P i.now_ticks))) :
    ∃ steps, run P st (inp0 :: rest) = some steps ∧ steps.length = rest.length + 1 ∧
      ∀ (i : Nat) (inp : TickInput) (r : BlinkState × TickOutput),
        (inp0 :: rest)[i]? = some inp → steps[i]? = some r →
        (r.1.is_blinking = true
          ↔ time_ms P inp.now_ticks - time_ms P inp0.trigger_ticks < BLINK_DURATION) ∧
        (r.1.is_blinking = false → r.2.frame = List.replicate 42 0) ∧
        r.2.detected = decide (i = 0) := by
  have ht0 := time_ms_lt P inp0.trigger_ticks
  simp only [List.map_cons] at htimes
  have hpw := List.pairwise_cons.mp htimes
  have hle : time_ms P inp0.trigger_ticks ≤ time_ms P inp0.now_ticks :=
    hpw.1 _ (List.mem_cons_self _ _)
  have hb : (trigger_check P st inp0).is_blinking = true := by
    simp [trigger_check, htrig]
  have hs : (trigger_check P st inp0).blink_start
      = to_int (time_ms P inp0.trigger_ticks) := by
    simp [trigger_check, htrig]
  have hel : elapsed (time_ms P inp0.now_ticks) (trigger_check P st inp0).blink_start
      = time_ms P inp0.now_ticks - time_ms P inp0.trigger_ticks := by
    rw [hs, elapsed_to_int _ _ ht0 (time_ms_lt _ _), if_pos hle]
  obtain ⟨r, ht, hd1, hl1, hdet⟩ := tick_total P st inp0 hd
  have hr := ht
  rw [tick_eq P st inp0 hd, Option.some.injEq] at hr
  have hr1 : r.1.is_blinking = true
      ↔ time_ms P inp0.now_ticks - time_ms P inp0.trigger_ticks < BLINK_DURATION := by
    rw [← hr]
    simp [hb, hel]
  have hr2 : r.1.is_blinking = true → r.1.blink_start
      = to_int (time_ms P inp0.trigger_ticks) := by
    rw [← hr]
    intro _
    exact hs
  have hr3 : r.1.is_blinking = false → r.2.frame = List.replicate 42 0 := by
    rw [← hr]
    intro h
    have h1 : ¬ elapsed (time_ms P inp0.now_ticks) (trigger_check P st inp0).blink_start
        < BLINK_DURATION := by
      simpa [hb] using h
    show (if _ then _ else _) = _
    rw [if_neg (fun hc => h1 hc.2.1)]
    exact solid_frame_off
  obtain ⟨rs, hrun, hlen, hall⟩ := window_quiet_run P _ ht0 rest r.1
    (time_ms P inp0.now_ticks) hd1 hr2 hr1 hle (by rw [hl1]; exact hquiet) hpw.2
  refine ⟨r :: rs, run_cons_some P st inp0 rest r rs ht hrun, by simp [hlen], ?_⟩
  intro i inp1 r1 hi hri
  cases i with
  | zero =>
    simp only [List.getElem?_cons_zero, Option.some.injEq] at hi hri
    subst hi
    subst hri
    exact ⟨hr1, hr3, by simp [hdet, htrig]⟩
  | succ n =>
    simp only [List.getElem?_cons_succ] at hi hri
    obtain ⟨h1, h2, h3⟩ := hall n inp1 r1 hi hri
    exact ⟨h1, h2, by simp [h3]⟩

/-- A run on samples all equal to the stored one never triggers. -/
theorem constant_run (P : Nat) (inputs : List TickInput) :
    ∀ st : BlinkState, st.led_data.length = LED_DATA_SIZE →
      (∀ i ∈ inputs, i.current_light = st.last_light_value) →
      ∃ steps, run P st inputs = some steps ∧
        steps.map (fun r => r.2.detected) = List.replicate inputs.length false := by
  induction inputs with
  | nil =>
    intro st _ _
    exact ⟨[], rfl, rfl⟩
  | cons inp rest ih =>
    intro st hd hconst
    obtain ⟨r, ht, hd1, hl1, hdet⟩ := tick_total P st inp hd
    have hsame : inp.current_light = st.last_light_value :=
      hconst inp (List.mem_cons_self _ _)
    have hno : light_changed st inp = false := by
      rw [light_changed_eq_false_iff, hsame]
      simp
    obtain ⟨rs, hrun, hmap⟩ := ih r.1 hd1 (by
      intro i hi
      rw [hl1, hsame]
      exact hconst i (List.mem_cons_of_mem _ hi))
    refine ⟨r :: rs, run_cons_some P st inp rest r rs ht hrun, ?_⟩
    simp [hmap, hdet, hno, List.replicate_succ]

/-- A run on a single step change of the samples triggers on the iteration of
the step and on no other. -/
theorem step_change_run (P : Nat) (step : TickInput) (post : List TickInput)
    (pre : List TickInput) :
    ∀ st : BlinkState, st.led_data.length = LED_DATA_SIZE →
      (∀ i ∈ pre, i.current_light = st.last_light_value) →
      200 < |step.current_light - st.last_light_value| →
      (∀ i ∈ post, i.current_light = step.current_light) →
      ∃ steps, run P st (pre ++ step :: post) = some steps ∧
        steps.map (fun r => r.2.detected)
          = List.replicate pre.length false ++ true :: List.replicate post.length false := by
  induction pre with
  | nil =>
    intro st hd _ hstep hpost
    obtain ⟨r, ht, hd1, hl1, hdet⟩ := tick_total P st step hd
    obtain ⟨rs, hrun, hmap⟩ := constant_run P post r.1 hd1 (by
      intro i hi
      rw [hl1]
      exact hpost i hi)
    refine ⟨r :: rs, run_cons_some P st step post r rs ht hrun, ?_⟩
    simp [hmap, hdet, (light_changed_iff st step).mpr hstep]
  | cons inp rest ih =>
    intro st hd hpre hstep hpost
    obtain ⟨r, ht, hd1, hl1, hdet⟩ := tick_total P st inp hd
    have hsame : inp.current_light = st.last_light_value :=
      hpre inp (List.mem_cons_self _ _)
    have hno : light_changed st inp = false := by
      rw [light_changed_eq_false_iff, hsame]
      simp
    obtain ⟨rs, hrun, hmap⟩ := ih r.1 hd1
      (by
        intro i hi
        rw [hl1, hsame]
        exact hpre i (List.mem_cons_of_mem _ hi))
      (by rw [hl1, hsame]; exact hstep) hpost
    refine ⟨r :: rs, run_cons_some P st inp _ r rs ht hrun, ?_⟩
    simp [hmap, hdet, hno, List.replicate_succ]

/-! ## Facts about the waveform encoder -/

theorem encode_byte_eq (cfg : rmt_bytes_encoder_config) (byte : Nat) :
    encode_byte cfg byte
      = (List.range 8).map fun k =>
          if (if cfg.msb_first then msb_bit byte k else lsb_bit byte k) = 1 then cfg.bit1
          else cfg.bit0 := rfl

theorem encode_byte_length (cfg : rmt_bytes_encoder_config) (byte : Nat) :
    (encode_byte cfg byte).length = 8 := by
  simp [encode_byte]

theorem rmt_encode_bytes_length (cfg : rmt_bytes_encoder_config) (bytes : List Nat) :
    (rmt_encode_bytes cfg bytes).length = 8 * bytes.length := by
  induction bytes with
  | nil => rfl
  | cons b rest ih =>
    simp only [rmt_encode_bytes, List.length_append, encode_byte_length, ih, List.length_cons]
    omega

/-- Pulse pair `8 * i + k` of the train is the pair of bit `k` of byte `i`. -/
theorem rmt_encode_bytes_getElem? (cfg : rmt_bytes_encoder_config) (bytes : List Nat) :
    ∀ (i k byte : Nat), k < 8 → bytes[i]? = some byte →
      (rmt_encode_bytes cfg bytes)[8 * i + k]?
        = some (if (if cfg.msb_first then msb_bit byte k else lsb_bit byte k) = 1
            then cfg.bit1 else cfg.bit0) := by
  induction bytes with
  | nil =>
    intro i k byte _ h
    simp at h
  | cons b rest ih =>
    intro i k byte hk h
    cases i with
    | zero =>
      simp only [List.getElem?_cons_zero, Option.some.injEq] at h
      subst h
      simp only [rmt_encode_bytes, Nat.mul_zero, Nat.zero_add]
      rw [List.getElem?_append_left (by rw [encode_byte_length]; exact hk)]
      simp [encode_byte, List.getElem?_map, List.getElem?_range, hk]
    | succ n =>
      simp only [List.getElem?_cons_succ] at h
      simp only [rmt_encode_bytes]
      rw [List.getElem?_append_right (by rw [encode_byte_length]; omega)]
      have e : 8 * (n + 1) + k - (encode_byte cfg b).length = 8 * n + k := by
        rw [encode_byte_length]; omega
      rw [e]
      exact ih n k byte hk h

theorem decode_symbol_bit (bit : Nat) :
    decode_symbol (if bit = 1 then bytes_encoder_config.bit1 else bytes_encoder_config.bit0)
      = some (if bit = 1 then 1 else 0) := by
  split <;> decide

/-- The reference decoder reads back one encoded byte. -/
theorem decode_encode_byte (byte : Nat) (hb : byte < 256) (rest : List rmt_symbol) :
    ws2812_decode (encode_byte bytes_encoder_config byte ++ rest)
      = (ws2812_decode rest).map (fun bytes => byte :: bytes) := by
  have hcfg : bytes_encoder_config.msb_first = true := rfl
  have hrange : List.range 8 = [0, 1, 2, 3, 4, 5, 6, 7] := by decide
  simp only [encode_byte, hcfg, if_true, hrange, List.map_cons, List.map_nil,
    List.cons_append, List.nil_append, ws2812_decode, List.mapM_cons, List.mapM_nil,
    decode_symbol_bit, Option.bind_eq_bind, Option.some_bind, Option.pure_def]
  have hval : bits_to_byte
      [if msb_bit byte 0 = 1 then 1 else 0, if msb_bit byte 1 = 1 then 1 else 0,
        if msb_bit byte 2 = 1 then 1 else 0, if msb_bit byte 3 = 1 then 1 else 0,
        if msb_bit byte 4 = 1 then 1 else 0, if msb_bit byte 5 = 1 then 1 else 0,
        if msb_bit byte 6 = 1 then 1 else 0, if msb_bit byte 7 = 1 then 1 else 0] = byte := by
    have hbit : ∀ x : Nat, (if x % 2 = 1 then 1 else 0) = x % 2 := by
      intro x
      split <;> omega
    simp only [bits_to_byte, List.foldl_cons, List.foldl_nil, msb_bit, hbit]
    norm_num
    omega
  rw [hval]
  show ((ws2812_decode rest).bind fun bytes => some (byte :: bytes)) = _
  cases ws2812_decode rest <;> rfl

/-! ## The frame buffer operations -/

/-- C1: `set_pixel` with an index `pos ≥ LED_COUNT` does not fault and leaves the
frame buffer exactly as it was, whatever the buffer and the colour. -/
theorem set_pixel_out_of_range (led_data : List Nat) (pos r g b : Nat)
    (hpos : LED_COUNT ≤ pos) :
    set_pixel led_data pos r g b = some led_data := by
  have h : ¬ pos < LED_COUNT := Nat.not_lt.mpr hpos
  simp only [set_pixel, h, if_false]

theorem set_pixel_out_of_range_witness :
    LED_COUNT ≤ 14 ∧
      set_pixel (List.replicate 42 7) 14 1 2 3 = some (List.replicate 42 7) :=
  ⟨by decide, set_pixel_out_of_range (List.replicate 42 7) 14 1 2 3 (by decide)⟩

/-- C2: on a 42-byte frame buffer and for `pos < LED_COUNT`, `set_pixel` does not
fault, puts `g`, `r`, `b` at offsets `3 * pos`, `3 * pos + 1`, `3 * pos + 2`,
leaves every other byte as it was and keeps the length `LED_COUNT * 3 = 42`. -/
theorem set_pixel_in_range (led_data : List Nat) (pos r g b : Nat)
    (hlen : led_data.length = LED_COUNT * 3) (hpos : pos < LED_COUNT) :
    ∃ d, set_pixel led_data pos r g b = some d ∧
      d.length = LED_COUNT * 3 ∧ d.length = 42 ∧
      d[3 * pos]? = some g ∧ d[3 * pos + 1]? = some r ∧ d[3 * pos + 2]? = some b ∧
      ∀ j, j ≠ 3 * pos → j ≠ 3 * pos + 1 → j ≠ 3 * pos + 2 → d[j]? = led_data[j]? := by
  have h42 : led_data.length = 42 := hlen
  have h14 : pos < 14 := hpos
  refine ⟨_, set_pixel_eq r g b hlen hpos, ?_, ?_, ?_, ?_, ?_, ?_⟩
  · simp [List.length_set, h42, LED_COUNT]
  · simp [List.length_set, h42]
  · have e : 3 * pos < 42 := by omega
    simp [List.getElem?_set, h42, Nat.mul_comm pos 3, e]
  · have e : 3 * pos + 1 < 42 := by omega
    simp [List.getElem?_set, h42, Nat.mul_comm pos 3, e]
  · have e : 3 * pos + 2 < 42 := by omega
    simp [List.getElem?_set, h42, Nat.mul_comm pos 3, e]
  · intro j h0 h1 h2
    have e0 : ¬ pos * 3 = j := by omega
    have e1 : ¬ pos * 3 + 1 = j := by omega
    have e2 : ¬ pos * 3 + 2 = j := by omega
    simp [List.getElem?_set, e0, e1, e2]

theorem set_pixel_in_range_witness :
    ∃ d, set_pixel (List.replicate 42 7) 2 10 20 30 = some d ∧
      d.length = LED_COUNT * 3 ∧ d.length = 42 ∧
      d[3 * 2]? = some 20 ∧ d[3 * 2 + 1]? = some 10 ∧ d[3 * 2 + 2]? = some 30 ∧
      ∀ j, j ≠ 3 * 2 → j ≠ 3 * 2 + 1 → j ≠ 3 * 2 + 2 →
        d[j]? = (List.replicate 42 7)[j]? :=
  set_pixel_in_range (List.replicate 42 7) 2 10 20 30 (by decide) (by decide)

/-! ## One iteration of the control loop -/

/-- C3: in an iteration started in IDLE with 12-bit samples, the difference of
the samples fits an `int`, and the controller is BLINKING after the trigger
check exactly when `|current - previous| > 200`; a delta of 200 does not
trigger, a delta of 201 does, and on a trigger `blink_start` holds the time read
at the trigger (otherwise it is unchanged). -/
theorem trigger_threshold (P : Nat) (st : BlinkState) (inp : TickInput)
    (hidle : st.is_blinking = false)
    (hprev : 0 ≤ st.last_light_value ∧ st.last_light_value ≤ 4095)
    (hcur : 0 ≤ inp.current_light ∧ inp.current_light ≤ 4095) :
    (-2147483648 ≤ inp.current_light - st.last_light_value
        ∧ inp.current_light - st.last_light_value ≤ 2147483647) ∧
      ((trigger_check P st inp).is_blinking = true
        ↔ 200 < |inp.current_light - st.last_light_value|) ∧
      (|inp.current_light - st.last_light_value| = 200 →
        (trigger_check P st inp).is_blinking = false) ∧
      (|inp.current_light - st.last_light_value| = 201 →
        (trigger_check P st inp).is_blinking = true) ∧
      (200 < |inp.current_light - st.last_light_value| →
        (trigger_check P st inp).blink_start = to_int (time_ms P inp.trigger_ticks) ∧
        elapsed (time_ms P inp.trigger_ticks) (trigger_check P st inp).blink_start = 0) ∧
      (|inp.current_light - st.last_light_value| ≤ 200 →
        (trigger_check P st inp).blink_start = st.blink_start) := by
  have key : (trigger_check P st inp).is_blinking = true
      ↔ 200 < |inp.current_light - st.last_light_value| := by
    rw [← light_changed_iff]
    unfold trigger_check
    by_cases h : light_changed st inp = true
    · simp [h]
    · simp [h, hidle]
  refine ⟨by omega, key, ?_, ?_, ?_, ?_⟩
  · intro h
    rw [← Bool.not_eq_true, key, h]
    decide
  · intro h
    rw [key, h]
    decide
  · intro h
    have hc : light_changed st inp = true := (light_changed_iff st inp).mpr h
    have hb : (trigger_check P st inp).blink_start
        = to_int (time_ms P inp.trigger_ticks) := by
      simp [trigger_check, hc]
    refine ⟨hb, ?_⟩
    rw [hb, elapsed_to_int _ _ (time_ms_lt _ _) (time_ms_lt _ _)]
    simp
  · intro h
    have hc : light_changed st inp = false := (light_changed_eq_false_iff st inp).mpr h
    simp [trigger_check, hc]

theorem trigger_threshold_witness :
    (-2147483648 ≤ (1200 : Int) - 1000 ∧ (1200 : Int) - 1000 ≤ 2147483647) ∧
      ((trigger_check 10 ⟨List.replicate 42 0, 1000, 0, false⟩ ⟨1200, 50, 50⟩).is_blinking
          = true ↔ 200 < |(1200 : Int) - 1000|) ∧
      (|(1200 : Int) - 1000| = 200 →
        (trigger_check 10 ⟨List.replicate 42 0, 1000, 0, false⟩ ⟨1200, 50, 50⟩).is_blinking
          = false) ∧
      (|(1200 : Int) - 1000| = 201 →
        (trigger_check 10 ⟨List.replicate 42 0, 1000, 0, false⟩ ⟨1200, 50, 50⟩).is_blinking
          = true) ∧
      (200 < |(1200 : Int) - 1000| →
        (trigger_check 10 ⟨List.replicate 42 0, 1000, 0, false⟩ ⟨1200, 50, 50⟩).blink_start
          = to_int (time_ms 10 50) ∧
        elapsed (time_ms 10 50)
          (trigger_check 10 ⟨List.replicate 42 0, 1000, 0, false⟩ ⟨1200, 50, 50⟩).blink_start
          = 0) ∧
      (|(1200 : Int) - 1000| ≤ 200 →
        (trigger_check 10 ⟨List.replicate 42 0, 1000, 0, false⟩ ⟨1200, 50, 50⟩).blink_start
          = 0) :=
  trigger_threshold 10 ⟨List.replicate 42 0, 1000, 0, false⟩ ⟨1200, 50, 50⟩ rfl
    ⟨by decide, by decide⟩ ⟨by decide, by decide⟩

/-- C4: when the controller is BLINKING after the trigger check and
`current_time - blink_start < 10000`, the iteration does not fault, the frame it
transmits has all 14 pixels red (bytes `0, 255, 0` in green-red-blue order) when
`(current_time / 500) % 2 = 1` and all 42 bytes zero when it is `0`, and the
controller is still BLINKING afterwards. -/
theorem blinking_frame (P : Nat) (st : BlinkState) (inp : TickInput)
    (hlen : st.led_data.length = LED_COUNT * 3)
    (hblink : (trigger_check P st inp).is_blinking = true)
    (helapsed : elapsed (time_ms P inp.now_ticks) (trigger_check P st inp).blink_start
      < BLINK_DURATION) :
    ∃ st1 out, tick P st inp = some (st1, out) ∧
      st1.is_blinking = true ∧
      out.frame.length = 42 ∧
      ((time_ms P inp.now_ticks / 500) % 2 = 1 →
        ∀ i, i < LED_COUNT →
          out.frame[3 * i]? = some 0 ∧ out.frame[3 * i + 1]? = some 255
            ∧ out.frame[3 * i + 2]? = some 0) ∧
      ((time_ms P inp.now_ticks / 500) % 2 = 0 → out.frame = List.replicate 42 0) := by
  refine ⟨_, _, tick_eq P st inp hlen, ?_, ?_, ?_, ?_⟩
  · simp [hblink, helapsed]
  · simp only
    split
    · exact solid_frame_length _ _ _
    · exact solid_frame_length _ _ _
  · intro hodd i hi
    have hne : (time_ms P inp.now_ticks / 500) % 2 ≠ 0 := by omega
    have h14 : i < 14 := hi
    simp only [hblink, helapsed, hne, ne_eq, not_false_eq_true, and_self, if_true]
    rw [solid_frame_getElem? _ _ _ _ (by omega), solid_frame_getElem? _ _ _ _ (by omega),
      solid_frame_getElem? _ _ _ _ (by omega)]
    have e0 : (3 * i) % 3 = 0 := by omega
    have e1 : (3 * i + 1) % 3 = 1 := by omega
    have e2 : (3 * i + 2) % 3 = 2 := by omega
    simp [grb_byte, e0, e1, e2]
  · intro heven
    simp [heven, solid_frame_off]

theorem blinking_frame_witness :
    ∃ st1 out,
      tick 10 ⟨List.replicate 42 9, 1000, 0, false⟩ ⟨1250, 50, 50⟩ = some (st1, out) ∧
      st1.is_blinking = true ∧
      out.frame.length = 42 ∧
      ((time_ms 10 50 / 500) % 2 = 1 →
        ∀ i, i < LED_COUNT →
          out.frame[3 * i]? = some 0 ∧ out.frame[3 * i + 1]? = some 255
            ∧ out.frame[3 * i + 2]? = some 0) ∧
      ((time_ms 10 50 / 500) % 2 = 0 → out.frame = List.replicate 42 0) :=
  blinking_frame 10 ⟨List.replicate 42 9, 1000, 0, false⟩ ⟨1250, 50, 50⟩
    (by decide) (by decide) (by decide)

/-- C5: when the controller is BLINKING after the trigger check and the unsigned
32-bit difference `current_time - blink_start` is at least `BLINK_DURATION`,
the iteration does not fault, the controller goes from BLINKING to IDLE and the
frame it transmits has all 42 bytes zero. -/
theorem blink_expiry (P : Nat) (st : BlinkState) (inp : TickInput)
    (hlen : st.led_data.length = LED_COUNT * 3)
    (hblink : (trigger_check P st inp).is_blinking = true)
    (helapsed : BLINK_DURATION
      ≤ elapsed (time_ms P inp.now_ticks) (trigger_check P st inp).blink_start) :
    ∃ st1 out, tick P st inp = some (st1, out) ∧
      st1.is_blinking = false ∧
      st1.is_blinking ≠ (trigger_check P st inp).is_blinking ∧
      out.frame = List.replicate 42 0 ∧
      out.frame.length = LED_COUNT * 3 ∧
      ∀ i, i < LED_COUNT →
        out.frame[3 * i]? = some 0 ∧ out.frame[3 * i + 1]? = some 0
          ∧ out.frame[3 * i + 2]? = some 0 := by
  have hnot : ¬ elapsed (time_ms P inp.now_ticks) (trigger_check P st inp).blink_start
      < BLINK_DURATION := Nat.not_lt.mpr helapsed
  refine ⟨_, _, tick_eq P st inp hlen, ?_, ?_, ?_, ?_, ?_⟩
  · simp [hnot]
  · simp [hnot, hblink]
  · simp [hnot, solid_frame_off]
  · simp [hnot, solid_frame_off, LED_COUNT]
  · intro i hi
    have h14 : i < 14 := hi
    simp only [hnot, false_and, and_false, if_false, solid_frame_off]
    have e0 : 3 * i < 42 := by omega
    have e1 : 3 * i + 1 < 42 := by omega
    have e2 : 3 * i + 2 < 42 := by omega
    simp only [List.getElem?_replicate, e0, e1, e2, if_true, and_self]

theorem blink_expiry_witness :
    ∃ st1 out,
      tick 10 ⟨List.replicate 42 9, 1000, 500, true⟩ ⟨1000, 0, 1050⟩ = some (st1, out) ∧
      st1.is_blinking = false ∧
      st1.is_blinking
        ≠ (trigger_check 10 ⟨List.replicate 42 9, 1000, 500, true⟩ ⟨1000, 0, 1050⟩).is_blinking ∧
      out.frame = List.replicate 42 0 ∧
      out.frame.length = LED_COUNT * 3 ∧
      ∀ i, i < LED_COUNT →
        out.frame[3 * i]? = some 0 ∧ out.frame[3 * i + 1]? = some 0
          ∧ out.frame[3 * i + 2]? = some 0 :=
  blink_expiry 10 ⟨List.replicate 42 9, 1000, 500, true⟩ ⟨1000, 0, 1050⟩
    (by decide) (by decide) (by decide)

/-- C8: an iteration started in IDLE with `|current - previous| ≤ 200` transmits
42 zero bytes whatever the frame buffer held, stays IDLE and keeps
`blink_start`; a run from an IDLE state, and the whole of `app_main`, with
consecutive sample deltas never above 200 transmit only all-off frames. -/
theorem idle_stays_off :
    (∀ (P : Nat) (st : BlinkState) (inp : TickInput),
      st.led_data.length = LED_COUNT * 3 → st.is_blinking = false →
      |inp.current_light - st.last_light_value| ≤ 200 →
      ∃ st1 out, tick P st inp = some (st1, out) ∧ out.frame = List.replicate 42 0 ∧
        st1.is_blinking = false ∧ st1.blink_start = st.blink_start) ∧
    (∀ (P : Nat) (st : BlinkState) (inputs : List TickInput),
      st.led_data.length = LED_COUNT * 3 → st.is_blinking = false →
      quiet st.last_light_value inputs = true →
      ∃ steps, run P st inputs = some steps ∧ steps.length = inputs.length ∧
        ∀ r ∈ steps, r.2.frame = List.replicate 42 0 ∧ r.1.is_blinking = false) ∧
    (∀ (P : Nat) (led_data : List Nat) (first_light : Int) (inputs : List TickInput),
      led_data.length = LED_COUNT * 3 → quiet first_light inputs = true →
      ∃ outs, app_main P led_data first_light inputs = some outs ∧
        outs.length = inputs.length + 1 ∧
        ∀ out ∈ outs, out.frame = List.replicate 42 0) := by
  refine ⟨?_, ?_, ?_⟩
  · intro P st inp hd hidle hq
    obtain ⟨st1, ht, hb, hs, _, _⟩ := idle_quiet_tick P st inp hd hidle
      ((light_changed_eq_false_iff st inp).mpr hq)
    exact ⟨st1, _, ht, rfl, hb, hs⟩
  · intro P st inputs hd hidle hq
    obtain ⟨steps, hrun, hlen, hall⟩ := idle_quiet_run P inputs st hd hidle hq
    exact ⟨steps, hrun, hlen, fun r hr => ⟨(hall r hr).1, (hall r hr).2.2⟩⟩
  · intro P led_data first_light inputs hd hq
    have hinit : app_init led_data first_light
        = some (⟨solid_frame 0 0 0, first_light, 0, false⟩, ⟨false, solid_frame 0 0 0⟩) := by
      simp [app_init, set_all_pixels_eq led_data 0 0 0 hd]
    obtain ⟨steps, hrun, hlen, hall⟩ := idle_quiet_run P inputs
      ⟨solid_frame 0 0 0, first_light, 0, false⟩ (solid_frame_length 0 0 0) rfl hq
    refine ⟨⟨false, solid_frame 0 0 0⟩ :: steps.map Prod.snd, ?_, ?_, ?_⟩
    · simp only [app_main, hinit, hrun, Option.bind_eq_bind, Option.some_bind,
        Option.pure_def]
    · simp [hlen]
    · intro out hout
      rcases List.mem_cons.mp hout with h | h
      · rw [h]
        exact solid_frame_off
      · obtain ⟨r, hr, hro⟩ := List.mem_map.mp h
        rw [← hro]
        exact (hall r hr).1

theorem idle_stays_off_witness :
    (∃ st1 out,
      tick 10 ⟨List.replicate 42 9, 1000, 0, false⟩ ⟨1200, 50, 50⟩ = some (st1, out) ∧
        out.frame = List.replicate 42 0 ∧ st1.is_blinking = false ∧ st1.blink_start = 0) ∧
    (∃ outs,
      app_main 10 (List.replicate 42 9) 1000 [⟨1200, 50, 50⟩, ⟨1400, 60, 60⟩]
          = some outs ∧
        outs.length = 2 + 1 ∧ ∀ out ∈ outs, out.frame = List.replicate 42 0) :=
  ⟨idle_stays_off.1 10 ⟨List.replicate 42 9, 1000, 0, false⟩ ⟨1200, 50, 50⟩
      (by decide) rfl (by decide),
    idle_stays_off.2.2 10 (List.replicate 42 9) 1000 [⟨1200, 50, 50⟩, ⟨1400, 60, 60⟩]
      (by decide) (by decide)⟩

/-! ## Runs of the control loop -/

/-- C6: in a run whose first iteration triggers (blink window from the time
`t0` read at the trigger), with no later trigger and non-decreasing times, the
run does not fault; after each iteration the controller is BLINKING exactly
while `current_time - t0 < 10000`, so the first iteration with
`current_time - t0 ≥ 10000` returns it to IDLE, and on that iteration and every
later one the controller is IDLE and the transmitted frame is all off. -/
theorem blink_window_ends (P : Nat) (st : BlinkState) (inp0 : TickInput)
    (rest : List TickInput)
    (hlen : st.led_data.length = LED_COUNT * 3)
    (htrig : 200 < |inp0.current_light - st.last_light_value|)
    (hquiet : quiet inp0.current_light rest = true)
    (htimes : List.Pairwise (· ≤ ·)
      (time_ms P inp0.trigger_ticks
        :: (inp0 :: rest).map (fun i => time_ms P i.now_ticks))) :
    ∃ steps, run P st (inp0 :: rest) = some steps ∧ steps.length = rest.length + 1 ∧
      (∀ (i : Nat) (inp : TickInput) (r : BlinkState × TickOutput),
        (inp0 :: rest)[i]? = some inp → steps[i]? = some r →
        (r.1.is_blinking = true
          ↔ time_ms P inp.now_ticks - time_ms P inp0.trigger_ticks < BLINK_DURATION)) ∧
      (∀ (i j : Nat) (inp : TickInput) (r : BlinkState × TickOutput), i ≤ j →
        (inp0 :: rest)[i]? = some inp → steps[j]? = some r →
        BLINK_DURATION ≤ time_ms P inp.now_ticks - time_ms P inp0.trigger_ticks →
        r.1.is_blinking = false ∧ r.2.frame = List.replicate 42 0) := by
  obtain ⟨steps, hrun, hl, hall⟩ := window_after_trigger P st inp0 rest hlen
    ((light_changed_iff st inp0).mpr htrig) hquiet htimes
  refine ⟨steps, hrun, hl, fun i inp r hi hr => (hall i inp r hi hr).1, ?_⟩
  intro i j inp r hij hi hr hexp
  have hjlt : j < (inp0 :: rest).length := by
    have := (List.getElem?_eq_some.mp hr).1
    simpa [hl] using this
  have hj : (inp0 :: rest)[j]? = some ((inp0 :: rest)[j]) := List.getElem?_eq_getElem hjlt
  have hmono := pairwise_le_of_index (fun i => time_ms P i.now_ticks) (inp0 :: rest)
    (List.pairwise_cons.mp htimes).2 i j inp _ hij hi hj
  obtain ⟨h1, h2, _⟩ := hall j _ r hj hr
  have hidle : r.1.is_blinking = false := by
    rw [← Bool.not_eq_true, h1]
    simp only at hmono
    omega
  exact ⟨hidle, h2 hidle⟩

theorem blink_window_ends_witness :
    ∃ steps,
      run 10 ⟨List.replicate 42 0, 1000, 0, false⟩
        (⟨1250, 100, 100⟩ :: [⟨1250, 0, 600⟩, ⟨1300, 0, 1100⟩, ⟨1300, 0, 1200⟩])
        = some steps ∧
      steps.length = [(⟨1250, 0, 600⟩ : TickInput), ⟨1300, 0, 1100⟩, ⟨1300, 0, 1200⟩].length + 1 ∧
      (∀ (i : Nat) (inp : TickInput) (r : BlinkState × TickOutput),
        ((⟨1250, 100, 100⟩ : TickInput)
          :: [⟨1250, 0, 600⟩, ⟨1300, 0, 1100⟩, ⟨1300, 0, 1200⟩])[i]? = some inp →
        steps[i]? = some r →
        (r.1.is_blinking = true
          ↔ time_ms 10 inp.now_ticks - time_ms 10 (⟨1250, 100, 100⟩ : TickInput).trigger_ticks
              < BLINK_DURATION)) ∧
      (∀ (i j : Nat) (inp : TickInput) (r : BlinkState × TickOutput), i ≤ j →
        ((⟨1250, 100, 100⟩ : TickInput)
          :: [⟨1250, 0, 600⟩, ⟨1300, 0, 1100⟩, ⟨1300, 0, 1200⟩])[i]? = some inp →
        steps[j]? = some r →
        BLINK_DURATION
          ≤ time_ms 10 inp.now_ticks - time_ms 10 (⟨1250, 100, 100⟩ : TickInput).trigger_ticks →
        r.1.is_blinking = false ∧ r.2.frame = List.replicate 42 0) :=
  blink_window_ends 10 ⟨List.replicate 42 0, 1000, 0, false⟩ ⟨1250, 100, 100⟩
    [⟨1250, 0, 600⟩, ⟨1300, 0, 1100⟩, ⟨1300, 0, 1200⟩]
    (by decide) (by decide) (by decide) (by decide)

/-- C10: in an iteration started in BLINKING with `|current - previous| > 200`,
`blink_start` is overwritten with the time read at the trigger, whatever it held;
the elapsed time of that iteration is measured from the new trigger, so the
controller stays BLINKING when the two clock readings of the iteration are less
than 10000 ms apart, in particular when they are equal, however long the old
window had run; with no later trigger the blink ends 10000 ms after this
trigger. -/
theorem retrigger_restarts_window (P : Nat) (st : BlinkState) (inp : TickInput)
    (hlen : st.led_data.length = LED_COUNT * 3)
    (hblink : st.is_blinking = true)
    (htrig : 200 < |inp.current_light - st.last_light_value|) :
    (trigger_check P st inp).is_blinking = true ∧
    (trigger_check P st inp).is_blinking = st.is_blinking ∧
    (trigger_check P st inp).blink_start = to_int (time_ms P inp.trigger_ticks) ∧
    elapsed (time_ms P inp.now_ticks) (trigger_check P st inp).blink_start
      = (if time_ms P inp.trigger_ticks ≤ time_ms P inp.now_ticks
          then time_ms P inp.now_ticks - time_ms P inp.trigger_ticks
          else time_ms P inp.now_ticks + 4294967296 - time_ms P inp.trigger_ticks) ∧
    (elapsed (time_ms P inp.now_ticks) (to_int (time_ms P inp.trigger_ticks))
        < BLINK_DURATION →
      ∃ st1 out, tick P st inp = some (st1, out) ∧ st1.is_blinking = true ∧
        st1.blink_start = to_int (time_ms P inp.trigger_ticks)) ∧
    (inp.now_ticks = inp.trigger_ticks →
      ∃ st1 out, tick P st inp = some (st1, out) ∧ st1.is_blinking = true ∧
        st1.blink_start = to_int (time_ms P inp.trigger_ticks)) ∧
    (∀ rest : List TickInput, quiet inp.current_light rest = true →
      List.Pairwise (· ≤ ·)
        (time_ms P inp.trigger_ticks
          :: (inp :: rest).map (fun i => time_ms P i.now_ticks)) →
      ∃ steps, run P st (inp :: rest) = some steps ∧ steps.length = rest.length + 1 ∧
        ∀ (i : Nat) (inp1 : TickInput) (r : BlinkState × TickOutput),
          (inp :: rest)[i]? = some inp1 → steps[i]? = some r →
          (r.1.is_blinking = true
            ↔ time_ms P inp1.now_ticks - time_ms P inp.trigger_ticks < BLINK_DURATION)) := by
  have hc : light_changed st inp = true := (light_changed_iff st inp).mpr htrig
  have hb : (trigger_check P st inp).is_blinking = true := by
    simp [trigger_check, hc]
  have hs : (trigger_check P st inp).blink_start = to_int (time_ms P inp.trigger_ticks) := by
    simp [trigger_check, hc]
  have hstay : elapsed (time_ms P inp.now_ticks) (to_int (time_ms P inp.trigger_ticks))
        < BLINK_DURATION →
      ∃ st1 out, tick P st inp = some (st1, out) ∧ st1.is_blinking = true ∧
        st1.blink_start = to_int (time_ms P inp.trigger_ticks) := by
    intro he
    refine ⟨_, _, tick_eq P st inp hlen, ?_, hs⟩
    simp [hb, hs, he]
  refine ⟨hb, hb.trans hblink.symm, hs, ?_, hstay, ?_, ?_⟩
  · rw [hs, elapsed_to_int _ _ (time_ms_lt _ _) (time_ms_lt _ _)]
  · intro heq
    apply hstay
    rw [heq, elapsed_to_int _ _ (time_ms_lt _ _) (time_ms_lt _ _)]
    simp [BLINK_DURATION]
  · intro rest hq hpw
    obtain ⟨steps, hrun, hl, hall⟩ := window_after_trigger P st inp rest hlen hc hq hpw
    exact ⟨steps, hrun, hl, fun i inp1 r hi hr => (hall i inp1 r hi hr).1⟩

theorem retrigger_restarts_window_witness :
    BLINK_DURATION ≤ elapsed (time_ms 10 2000) 0 ∧
    (trigger_check 10 ⟨List.replicate 42 0, 1000, 0, true⟩ ⟨1300, 2000, 2000⟩).blink_start
      = to_int (time_ms 10 2000) ∧
    ∃ st1 out,
      tick 10 ⟨List.replicate 42 0, 1000, 0, true⟩ ⟨1300, 2000, 2000⟩ = some (st1, out) ∧
      st1.is_blinking = true ∧ st1.blink_start = to_int (time_ms 10 2000) :=
  ⟨by decide,
    (retrigger_restarts_window 10 ⟨List.replicate 42 0, 1000, 0, true⟩ ⟨1300, 2000, 2000⟩
      (by decide) rfl (by decide)).2.2.1,
    (retrigger_restarts_window 10 ⟨List.replicate 42 0, 1000, 0, true⟩ ⟨1300, 2000, 2000⟩
      (by decide) rfl (by decide)).2.2.2.2.2.1 rfl⟩

/-- C9: every iteration, whatever the state and the branch taken, completes and
leaves `last_light_value` equal to its `current_light`; hence the trigger
condition of an iteration compares its sample with that of the iteration just
before, and a single step change between constant samples triggers on the
iteration of the step and on no other. -/
theorem previous_sample_tracking :
    (∀ (P : Nat) (st : BlinkState) (inp : TickInput),
      st.led_data.length = LED_COUNT * 3 →
      ∃ st1 out, tick P st inp = some (st1, out) ∧
        st1.last_light_value = inp.current_light) ∧
    (∀ (P : Nat) (st : BlinkState) (inp1 inp2 : TickInput),
      st.led_data.length = LED_COUNT * 3 →
      ∃ r1 r2, run P st [inp1, inp2] = some [r1, r2] ∧
        (r2.2.detected = true ↔ 200 < |inp2.current_light - inp1.current_light|)) ∧
    (∀ (P : Nat) (st : BlinkState) (pre : List TickInput) (step : TickInput)
        (post : List TickInput),
      st.led_data.length = LED_COUNT * 3 →
      (∀ i ∈ pre, i.current_light = st.last_light_value) →
      200 < |step.current_light - st.last_light_value| →
      (∀ i ∈ post, i.current_light = step.current_light) →
      ∃ steps, run P st (pre ++ step :: post) = some steps ∧
        steps.map (fun r => r.2.detected)
          = List.replicate pre.length false ++ true :: List.replicate post.length false) := by
  refine ⟨?_, ?_, ?_⟩
  · intro P st inp hd
    obtain ⟨r, ht, _, hl, _⟩ := tick_total P st inp hd
    exact ⟨r.1, r.2, ht, hl⟩
  · intro P st inp1 inp2 hd
    obtain ⟨r1, ht1, hd1, hl1, _⟩ := tick_total P st inp1 hd
    obtain ⟨r2, ht2, _, _, hdet2⟩ := tick_total P r1.1 inp2 hd1
    refine ⟨r1, r2, run_cons_some P st inp1 [inp2] r1 [r2] ht1
      (run_cons_some P r1.1 inp2 [] r2 [] ht2 rfl), ?_⟩
    rw [hdet2, light_changed_iff, hl1]
  · intro P st pre step post hd hpre hstep hpost
    exact step_change_run P step post pre st hd hpre hstep hpost

theorem previous_sample_tracking_witness :
    (∃ st1 out,
      tick 10 ⟨List.replicate 42 0, 1000, 0, true⟩ ⟨1300, 2000, 2000⟩ = some (st1, out) ∧
        st1.last_light_value = 1300) ∧
    (∃ steps,
      run 10 ⟨List.replicate 42 0, 1000, 0, false⟩
          ([⟨1000, 0, 10⟩, ⟨1000, 0, 20⟩] ++ ⟨1500, 30, 30⟩ :: [⟨1500, 0, 40⟩, ⟨1500, 0, 50⟩])
        = some steps ∧
      steps.map (fun r => r.2.detected)
        = List.replicate 2 false ++ true :: List.replicate 2 false) :=
  ⟨previous_sample_tracking.1 10 ⟨List.replicate 42 0, 1000, 0, true⟩ ⟨1300, 2000, 2000⟩
      (by decide),
    previous_sample_tracking.2.2 10 ⟨List.replicate 42 0, 1000, 0, false⟩
      [⟨1000, 0, 10⟩, ⟨1000, 0, 20⟩] ⟨1500, 30, 30⟩ [⟨1500, 0, 40⟩, ⟨1500, 0, 50⟩]
      (by decide) (by decide) (by decide) (by decide)⟩

/-! ## The waveform encoder -/

/-- C7: for every byte sequence (bytes below 256), the encoder configured by
`ws2812_init` yields exactly `8 * N` pulse pairs; pair `8 * i + k` is high 8 /
low 4 ticks when bit `7 - k` of byte `i` is 1 and high 4 / low 8 ticks when it
is 0 (most significant bit first, bytes in order); the reference decoder gives
back the bytes; and the pulse train depends on the bytes only. -/
theorem encoder_roundtrip (bytes : List Nat) (hbytes : ∀ b ∈ bytes, b < 256) :
    (update_leds bytes).length = 8 * bytes.length ∧
    (∀ (i k byte : Nat), k < 8 → bytes[i]? = some byte →
      (update_leds bytes)[8 * i + k]?
        = some (if (byte / 2 ^ (7 - k)) % 2 = 1
            then { level0 := 1, duration0 := 8, level1 := 0, duration1 := 4 }
            else { level0 := 1, duration0 := 4, level1 := 0, duration1 := 8 })) ∧
    ws2812_decode (update_leds bytes) = some bytes ∧
    (∀ other : List Nat, other = bytes → update_leds other = update_leds bytes) := by
  refine ⟨rmt_encode_bytes_length _ _, ?_, ?_, ?_⟩
  · intro i k byte hk hi
    rw [update_leds, rmt_encode_bytes_getElem? _ _ i k byte hk hi]
    rfl
  · induction bytes with
    | nil => rfl
    | cons b rest ih =>
      have hb : b < 256 := hbytes b (List.mem_cons_self _ _)
      have hrest : ∀ x ∈ rest, x < 256 := fun x hx => hbytes x (List.mem_cons_of_mem _ hx)
      have hdec := decode_encode_byte b hb (rmt_encode_bytes bytes_encoder_config rest)
      have ih1 : ws2812_decode (rmt_encode_bytes bytes_encoder_config rest) = some rest :=
        ih hrest
      rw [ih1] at hdec
      exact hdec
  · intro other h
    rw [h]

theorem encoder_roundtrip_witness :
    (update_leds [0, 255, 0]).length = 8 * [0, 255, 0].length ∧
    (∀ (i k byte : Nat), k < 8 → [0, 255, 0][i]? = some byte →
      (update_leds [0, 255, 0])[8 * i + k]?
        = some (if (byte / 2 ^ (7 - k)) % 2 = 1
            then { level0 := 1, duration0 := 8, level1 := 0, duration1 := 4 }
            else { level0 := 1, duration0 := 4, level1 := 0, duration1 := 8 })) ∧
    ws2812_decode (update_leds [0, 255, 0]) = some [0, 255, 0] ∧
    (∀ other : List Nat, other = [0, 255, 0] → update_leds other = update_leds [0, 255, 0]) :=
  encoder_roundtrip [0, 255, 0] (by decide)

end Warning
